import Mathlib

/-!
Verification of the PBC orchestrator demo (Go, `main.go`).

The Go program is a small HTTP workflow orchestrator: `createOrder` stores an
order, matches a workflow template (`findWorkflow` over `workflowsDB`), stores a
`WorkflowInstance` and runs `executeWorkflowSteps`, which suspends at a
`dcc_proposal` step; `acceptDCCHandler` applies the customer's DCC decision to
the stored order and resumes the instance.

We embed the program shallowly: the two global maps (`ordersDB`,
`workflowInstances`) become association lists inside a `ServerState`; the
side-effecting step executors (`proposeDCC`, `processPayment`) are recorded in
an event trace; `fmt.Sprintf("order-%d", n)` is modelled by an executable
decimal printer.  Monetary amounts (Go `float64`) are modelled by `Rat`: the
program only copies and compares them, so no floating-point rounding is
involved in any claim.
-/

/-- Go struct `Order` (`main.go`): `Amount`/`Currency` are the original
("search") fields, `PaymentAmount`/`PaymentCurrency` the execution fields. -/
structure Order where
  OrderID : String
  CustomerID : String
  Amount : Rat
  Currency : String
  CardBrand : String
  DCCAccepted : Bool
  PaymentAmount : Rat
  PaymentCurrency : String
deriving DecidableEq

/-- Go struct `WorkflowStep`. -/
structure WorkflowStep where
  StepID : String
  Service : String
  Status : String
deriving DecidableEq

/-- Go struct `Workflow`; `Criteria` is a string-keyed map, modelled as an
association list. -/
structure Workflow where
  WorkflowID : String
  Criteria : List (String × String)
  Steps : List WorkflowStep
deriving DecidableEq

/-- Go map read `m[k]` for `map[string]string`: returns the zero value `""`
when the key is absent. -/
def criteriaGet (m : List (String × String)) (k : String) : String :=
  (m.lookup k).getD ""

/-- The static template database `workflowsDB` (`main.go` lines 38-60). -/
def workflowsDB : List Workflow :=
  [ { WorkflowID := "wf-payment-dcc-proposal"
    , Criteria := [("payment_type", "credit_card"), ("currency", "USD")]
    , Steps := [ ⟨"dcc_proposal", "PBC_DCC", "pending"⟩
               , ⟨"payment_processing", "PBC_Payment", "pending"⟩ ] }
  , { WorkflowID := "wf-payment-generic"
    , Criteria := [("payment_type", "credit_card"), ("currency", "BRL")]
    , Steps := [ ⟨"payment_processing", "PBC_Payment", "pending"⟩ ] } ]

/-- Go struct `WorkflowInstance`: selected template plus current cursor. -/
structure WorkflowInstance where
  Workflow : Workflow
  StepIndex : Nat
deriving DecidableEq

/-- Association-list lookup, modelling `v, ok := m[k]` on a Go map. -/
def lookupKey {α : Type} (m : List (String × α)) (k : String) : Option α :=
  match m with
  | [] => none
  | (k', v) :: rest => if k' = k then some v else lookupKey rest k

/-- Association-list write, modelling `m[k] = v` on a Go map: replaces an
existing binding in place, otherwise appends. -/
def insertKey {α : Type} (m : List (String × α)) (k : String) (v : α) :
    List (String × α) :=
  match m with
  | [] => [(k, v)]
  | (k', v') :: rest =>
      if k' = k then (k, v) :: rest else (k', v') :: insertKey rest k v

/-- Association-list delete, modelling `delete(m, k)` on a Go map: removes
every binding of `k` (a Go map never holds more than one). -/
def eraseKey {α : Type} (m : List (String × α)) (k : String) :
    List (String × α) :=
  match m with
  | [] => []
  | (k', v') :: rest =>
      if k' = k then eraseKey rest k else (k', v') :: eraseKey rest k

/-- Shared mutable state of the Go program: the two global maps. -/
structure ServerState where
  ordersDB : List (String × Order)
  workflowInstances : List (String × WorkflowInstance)
deriving DecidableEq

/-- Little-endian base-10 digits of `n`, with fuel for structural recursion
(fuel `n` suffices since `n / 10 < n` for `n > 0`). -/
def toDecAux : Nat → Nat → List Nat
  | 0, _ => []
  | fuel + 1, n => if n = 0 then [] else n % 10 :: toDecAux fuel (n / 10)

/-- Decimal digit characters of `n`, most significant first. -/
def natChars (n : Nat) : List Char :=
  if n = 0 then ['0'] else ((toDecAux n n).map Nat.digitChar).reverse

/-- Model of `fmt.Sprintf("order-%d", n)` (`main.go` line 85). -/
def sprintfOrderId (n : Nat) : String :=
  ("order-".toList ++ natChars n).asString

/-- `findWorkflow` (`main.go` lines 115-123), with the template database as an
explicit argument: returns the first template with
`Criteria["payment_type"] == "credit_card"` and
`Criteria["currency"] == order.Currency`, else `nil`. -/
def findWorkflowIn (db : List Workflow) (order : Order) : Option Workflow :=
  match db with
  | [] => none
  | wf :: rest =>
      if criteriaGet wf.Criteria "payment_type" = "credit_card" ∧
         criteriaGet wf.Criteria "currency" = order.Currency then some wf
      else findWorkflowIn rest order

/-- `findWorkflow` applied to the program's static `workflowsDB`. -/
def findWorkflow (order : Order) : Option Workflow :=
  findWorkflowIn workflowsDB order

/-- Side effects of the step executors: `proposeDCC` and `processPayment`
(`main.go` lines 149-158) only log, so we record the order value they were
invoked with. -/
inductive Event where
  | proposeDCC (order : Order)
  | processPayment (order : Order)
deriving DecidableEq

/-- The step loop of `executeWorkflowSteps` (`main.go` lines 127-142) over the
remaining steps, carrying the running index `i`.  Returns the emitted events
and `some c` when the burst suspended with new cursor `c` (pause step), or
`none` when it ran to the end of the step list. -/
def runStepsFrom (order : Order) (steps : List WorkflowStep) (i : Nat) :
    List Event × Option Nat :=
  match steps with
  | [] => ([], none)
  | step :: rest =>
      if step.StepID = "dcc_proposal" then
        ([Event.proposeDCC order], some (i + 1))
      else
        let (tr, r) := runStepsFrom order rest (i + 1)
        (if step.Service = "PBC_Payment" then Event.processPayment order :: tr
         else tr, r)

/-- `executeWorkflowSteps` (`main.go` lines 126-146).  `instKey` is the
registry key under which the passed `*WorkflowInstance` pointer is stored (at
both call sites the instance was just read from / written to the map at that
key): a suspension writes the advanced cursor through that pointer, while
completion deletes the entry at `order.OrderID`. -/
def executeWorkflowSteps (order : Order) (instKey : String)
    (inst : WorkflowInstance)
    (instances : List (String × WorkflowInstance)) :
    List (String × WorkflowInstance) × List Event :=
  let (tr, r) :=
    runStepsFrom order (inst.Workflow.Steps.drop inst.StepIndex) inst.StepIndex
  match r with
  | some c => (insertKey instances instKey ⟨inst.Workflow, c⟩, tr)
  | none => (eraseKey instances order.OrderID, tr)

/-- The order value stored by `createOrder` (`main.go` lines 84-89): fresh ID
from the current store size, payment fields initialised from the originals;
every other decoded field is kept as-is. -/
def assignOrder (draft : Order) (st : ServerState) : Order :=
  { draft with
      OrderID := sprintfOrderId (st.ordersDB.length + 1)
      PaymentAmount := draft.Amount
      PaymentCurrency := draft.Currency }

/-- `createOrder` (`main.go` lines 76-112) past the decode step, with the
template database explicit: stores the order, matches a template, and when one
matches registers an instance at cursor 0 and runs the initial burst.  Returns
the new state, the stored order (the HTTP response body), and the burst's
event trace. -/
def createOrder (db : List Workflow) (draft : Order) (st : ServerState) :
    ServerState × Order × List Event :=
  let order := assignOrder draft st
  let orders1 := insertKey st.ordersDB order.OrderID order
  match findWorkflowIn db order with
  | none => (⟨orders1, st.workflowInstances⟩, order, [])
  | some wf =>
      let inst : WorkflowInstance := ⟨wf, 0⟩
      let insts1 := insertKey st.workflowInstances order.OrderID inst
      let (insts2, tr) := executeWorkflowSteps order order.OrderID inst insts1
      (⟨orders1, insts2⟩, order, tr)

/-- The decoded body of an `/accept-dcc` request (`main.go` lines 162-167). -/
structure DCCResponse where
  OrderID : String
  Accepted : Bool
  NewAmount : Rat
  NewCurrency : String
deriving DecidableEq

/-- Go zero value of `Order`: what `order` holds in `acceptDCCHandler` when
the looked-up key is absent. -/
def zeroOrder : Order :=
  ⟨"", "", 0, "", "", false, 0, ""⟩

/-- The order update applied by `acceptDCCHandler` (`main.go` lines 177-188):
on acceptance the payment fields take the new values and `DCCAccepted` is set;
on refusal only `DCCAccepted` is cleared. -/
def decisionUpdate (resp : DCCResponse) (o : Order) : Order :=
  if resp.Accepted then
    { o with PaymentAmount := resp.NewAmount
             PaymentCurrency := resp.NewCurrency
             DCCAccepted := true }
  else
    { o with DCCAccepted := false }

/-- `acceptDCCHandler` (`main.go` lines 161-202) past the decode step: updates
the stored order when it exists (leaving `order` the Go zero value otherwise),
then resumes the stored instance, if any, from its cursor. -/
def acceptDCCHandler (resp : DCCResponse) (st : ServerState) :
    ServerState × List Event :=
  let (orders1, order) :=
    match lookupKey st.ordersDB resp.OrderID with
    | some o =>
        let o' := decisionUpdate resp o
        (insertKey st.ordersDB resp.OrderID o', o')
    | none => (st.ordersDB, zeroOrder)
  match lookupKey st.workflowInstances resp.OrderID with
  | some inst =>
      let (insts1, tr) :=
        executeWorkflowSteps order resp.OrderID inst st.workflowInstances
      (⟨orders1, insts1⟩, tr)
  | none => (⟨orders1, st.workflowInstances⟩, [])

/-- A sequence of `createOrder` calls; returns the final state and the stored
orders in creation order. -/
def createMany (db : List Workflow) (drafts : List Order) (st : ServerState) :
    ServerState × List Order :=
  match drafts with
  | [] => (st, [])
  | d :: rest =>
      let (st1, o, _) := createOrder db d st
      let (st2, os) := createMany db rest st1
      (st2, o :: os)

/-- The empty initial state of the program. -/
def initialState : ServerState := ⟨[], []⟩

/-- Modelled from the spec (§4.1, the spec's matching rule, for comparison
with the source's `findWorkflow`): the order's original fields addressable by
a criterion key.  The Go `Order` struct has original fields customer ID,
currency and card brand; it has no payment-type field. -/
def orderOriginalField (o : Order) : String → Option String
  | "currency" => some o.Currency
  | "card_brand" => some o.CardBrand
  | "customer_id" => some o.CustomerID
  | _ => none

/-- Modelled from the spec (§4.1): a template matches when every criterion key
is exactly equal to the corresponding original field of the order. -/
def specCriteriaMatch (wf : Workflow) (o : Order) : Bool :=
  wf.Criteria.all fun kv => orderOriginalField o kv.1 == some kv.2

/-- Modelled from the spec (§4.1): return the first template (in registration
order) whose criteria all match the order's original fields. -/
def specMatchIn (db : List Workflow) (o : Order) : Option Workflow :=
  db.find? (fun wf => specCriteriaMatch wf o)

/-- Value of a little-endian base-10 digit list (proof helper). -/
def ofDec : List Nat → Nat
  | [] => 0
  | d :: rest => d + 10 * ofDec rest

/-- The trace emitted by a pause-free step list: one settlement invocation per
step targeting `PBC_Payment`, always with the same (current) order value. -/
def payTrace (o : Order) (steps : List WorkflowStep) : List Event :=
  (steps.filter fun s => s.Service == "PBC_Payment").map
    fun _ => Event.processPayment o

/-- The matching test actually performed by `findWorkflow`: the
`payment_type` criterion equals the literal `"credit_card"` and the
`currency` criterion equals the order's original currency. -/
def wfMatches (wf : Workflow) (o : Order) : Prop :=
  criteriaGet wf.Criteria "payment_type" = "credit_card" ∧
  criteriaGet wf.Criteria "currency" = o.Currency

instance wfMatchesDec (wf : Workflow) (o : Order) :
    Decidable (wfMatches wf o) := by
  unfold wfMatches; infer_instance

/-- The keys of the order store after `n` creations from the empty store. -/
def idKeys (n : Nat) : List String :=
  (List.range n).map fun i => sprintfOrderId (i + 1)

/-! ### Concrete fixtures used in witnesses and counterexamples

These mirror the repository's shell-script requests: an order-creation body
with `amount 100.00, currency USD, card VISA` and DCC decisions for
`order-1`/`order-2`. -/

/-- The decoded creation request of `create_order.sh` (USD order). -/
def draftUSD : Order := ⟨"", "cliente456", 100, "USD", "VISA", false, 0, ""⟩

/-- A BRL creation request (matches the generic template). -/
def draftBRL : Order := ⟨"", "cliente789", 50, "BRL", "MASTER", false, 0, ""⟩

/-- An EUR creation request (matches no template). -/
def draftEUR : Order := ⟨"", "cliente123", 10, "EUR", "VISA", false, 0, ""⟩

/-- The first registered template (the DCC workflow), as stored in
`workflowsDB`. -/
def wfDcc : Workflow :=
  { WorkflowID := "wf-payment-dcc-proposal"
  , Criteria := [("payment_type", "credit_card"), ("currency", "USD")]
  , Steps := [ ⟨"dcc_proposal", "PBC_DCC", "pending"⟩
             , ⟨"payment_processing", "PBC_Payment", "pending"⟩ ] }

/-- `order-1` as stored right after creation of `draftUSD`. -/
def oSusp : Order :=
  ⟨"order-1", "cliente456", 100, "USD", "VISA", false, 100, "USD"⟩

/-- The server state with `order-1` suspended after the DCC proposal. -/
def stSusp : ServerState :=
  ⟨[("order-1", oSusp)], [("order-1", ⟨wfDcc, 1⟩)]⟩

/-- An accepting DCC decision for `order-1` (85.0 BRL). -/
def respAccept : DCCResponse := ⟨"order-1", true, 85, "BRL"⟩

/-- A rejecting DCC decision for `order-1`. -/
def respReject : DCCResponse := ⟨"order-1", false, 85, "BRL"⟩

/-- `order-1` after an accepted DCC decision and completed workflow. -/
def oPaid : Order :=
  ⟨"order-1", "cliente456", 100, "USD", "VISA", true, 85, "BRL"⟩

/-- The server state after `order-1`'s workflow completed: the instance is
gone, only the order remains. -/
def stDone : ServerState := ⟨[("order-1", oPaid)], []⟩

/-- A duplicate (late) DCC decision for `order-1` carrying different values. -/
def respDup : DCCResponse := ⟨"order-1", true, 70, "EUR"⟩

/-! ### Helper lemmas about the map model -/

theorem lookupKey_insertKey_self {α : Type} (m : List (String × α)) (k : String)
    (v : α) : lookupKey (insertKey m k v) k = some v := by
  induction m with
  | nil => simp [insertKey, lookupKey]
  | cons p rest ih =>
      obtain ⟨k', v'⟩ := p
      by_cases h : k' = k
      · simp [insertKey, lookupKey, h]
      · simp [insertKey, lookupKey, h, ih]

theorem lookupKey_insertKey_ne {α : Type} (m : List (String × α))
    (k k' : String) (v : α) (h : k' ≠ k) :
    lookupKey (insertKey m k v) k' = lookupKey m k' := by
  have h' : ¬k = k' := fun hk => h hk.symm
  induction m with
  | nil => simp [insertKey, lookupKey, h']
  | cons p rest ih =>
      obtain ⟨k₀, v₀⟩ := p
      by_cases h0 : k₀ = k
      · subst h0
        simp [insertKey, lookupKey, h']
      · simp [insertKey, lookupKey, h0, ih]

theorem lookupKey_eraseKey_self {α : Type} (m : List (String × α))
    (k : String) : lookupKey (eraseKey m k) k = none := by
  induction m with
  | nil => simp [eraseKey, lookupKey]
  | cons p rest ih =>
      obtain ⟨k', v'⟩ := p
      by_cases h : k' = k
      · simp [eraseKey, h, ih]
      · simp [eraseKey, lookupKey, h, ih]

theorem lookupKey_eraseKey_ne {α : Type} (m : List (String × α))
    (k k' : String) (h : k' ≠ k) :
    lookupKey (eraseKey m k) k' = lookupKey m k' := by
  have h' : ¬k = k' := fun hk => h hk.symm
  induction m with
  | nil => simp [eraseKey]
  | cons p rest ih =>
      obtain ⟨k₀, v₀⟩ := p
      by_cases h0 : k₀ = k
      · subst h0
        simp [eraseKey, lookupKey, h', ih]
      · simp [eraseKey, lookupKey, h0, ih]

theorem lookupKey_append_of_some {α : Type} (m l : List (String × α))
    (k : String) (v : α) (h : lookupKey m k = some v) :
    lookupKey (m ++ l) k = some v := by
  induction m with
  | nil => simp [lookupKey] at h
  | cons p rest ih =>
      obtain ⟨k', v'⟩ := p
      by_cases h0 : k' = k
      · simp_all [lookupKey]
      · simp only [lookupKey, if_neg h0] at h
        simpa [lookupKey, h0] using ih h

theorem insertKey_fresh {α : Type} (m : List (String × α)) (k : String)
    (v : α) (h : k ∉ m.map Prod.fst) : insertKey m k v = m ++ [(k, v)] := by
  induction m with
  | nil => simp [insertKey]
  | cons p rest ih =>
      obtain ⟨k', v'⟩ := p
      simp only [List.map_cons, List.mem_cons] at h
      push_neg at h
      have h1 : ¬k' = k := fun hk => h.1 hk.symm
      simp [insertKey, h1, ih h.2]

/-! ### Injectivity of the assigned order IDs -/

theorem ofDec_toDecAux : ∀ fuel n, n ≤ fuel → ofDec (toDecAux fuel n) = n := by
  intro fuel
  induction fuel with
  | zero => intro n hn; interval_cases n; simp [toDecAux, ofDec]
  | succ f ih =>
      intro n hn
      by_cases h0 : n = 0
      · simp [toDecAux, h0, ofDec]
      · have hdiv : n / 10 ≤ f := by
          have : n / 10 < n := Nat.div_lt_self (Nat.pos_of_ne_zero h0) (by omega)
          omega
        simp only [toDecAux, if_neg h0, ofDec, ih _ hdiv]
        omega

theorem toDecAux_lt : ∀ fuel n d, d ∈ toDecAux fuel n → d < 10 := by
  intro fuel
  induction fuel with
  | zero => intro n d hd; simp [toDecAux] at hd
  | succ f ih =>
      intro n d hd
      by_cases h0 : n = 0
      · simp [toDecAux, h0] at hd
      · simp only [toDecAux, if_neg h0, List.mem_cons] at hd
        rcases hd with h | h
        · omega
        · exact ih _ _ h

theorem toDecAux_lt' (fuel n d : Nat) (hd : d ∈ toDecAux fuel n) : d < 10 :=
  toDecAux_lt fuel n d hd

theorem digitChar_inj_fin :
    ∀ a b : Fin 10, Nat.digitChar a.val = Nat.digitChar b.val → a = b := by
  decide

theorem map_digitChar_inj :
    ∀ l₁ l₂ : List Nat, (∀ d ∈ l₁, d < 10) → (∀ d ∈ l₂, d < 10) →
      l₁.map Nat.digitChar = l₂.map Nat.digitChar → l₁ = l₂ := by
  intro l₁
  induction l₁ with
  | nil =>
      intro l₂ _ _ h
      cases l₂ with
      | nil => rfl
      | cons b bs => simp at h
  | cons a as ih =>
      intro l₂ h₁ h₂ h
      cases l₂ with
      | nil => simp at h
      | cons b bs =>
          simp only [List.map_cons, List.cons.injEq] at h
          have ha : a < 10 := h₁ a (by simp)
          have hb : b < 10 := h₂ b (by simp)
          have : (⟨a, ha⟩ : Fin 10) = ⟨b, hb⟩ :=
            digitChar_inj_fin ⟨a, ha⟩ ⟨b, hb⟩ h.1
          have hab : a = b := by simpa using congrArg Fin.val this
          have htl : as = bs :=
            ih bs (fun d hd => h₁ d (by simp [hd]))
              (fun d hd => h₂ d (by simp [hd])) h.2
          simp [hab, htl]

theorem sprintfOrderId_inj (m n : Nat) (hm : 0 < m) (hn : 0 < n)
    (h : sprintfOrderId m = sprintfOrderId n) : m = n := by
  have hm0 : m ≠ 0 := Nat.pos_iff_ne_zero.mp hm
  have hn0 : n ≠ 0 := Nat.pos_iff_ne_zero.mp hn
  have hlists : "order-".toList ++ natChars m = "order-".toList ++ natChars n :=
    List.asString_inj.mp h
  have hchars : natChars m = natChars n := List.append_cancel_left hlists
  simp only [natChars, if_neg hm0, if_neg hn0, List.reverse_inj] at hchars
  have hdigits : toDecAux m m = toDecAux n n :=
    map_digitChar_inj _ _ (toDecAux_lt' m m) (toDecAux_lt' n n) hchars
  calc m = ofDec (toDecAux m m) := (ofDec_toDecAux m m le_rfl).symm
    _ = ofDec (toDecAux n n) := by rw [hdigits]
    _ = n := ofDec_toDecAux n n le_rfl

/-! ### Characterisation of the step-execution burst -/

theorem runStepsFrom_noPause (o : Order) (steps : List WorkflowStep) (i : Nat)
    (h : ∀ s ∈ steps, s.StepID ≠ "dcc_proposal") :
    runStepsFrom o steps i = (payTrace o steps, none) := by
  induction steps generalizing i with
  | nil => simp [runStepsFrom, payTrace]
  | cons s rest ih =>
      have hs : ¬s.StepID = "dcc_proposal" := h s (by simp)
      have hrest : ∀ s' ∈ rest, s'.StepID ≠ "dcc_proposal" :=
        fun s' hs' => h s' (by simp [hs'])
      by_cases hp : s.Service = "PBC_Payment"
      · simp [runStepsFrom, hs, ih (i + 1) hrest, payTrace, hp]
      · simp [runStepsFrom, hs, ih (i + 1) hrest, payTrace, hp]

theorem runStepsFrom_pause (o : Order) (pre rest : List WorkflowStep)
    (pause : WorkflowStep) (i : Nat)
    (hpre : ∀ s ∈ pre, s.StepID ≠ "dcc_proposal")
    (hp : pause.StepID = "dcc_proposal") :
    runStepsFrom o (pre ++ pause :: rest) i =
      (payTrace o pre ++ [Event.proposeDCC o], some (i + pre.length + 1)) := by
  induction pre generalizing i with
  | nil => simp [runStepsFrom, hp, payTrace]
  | cons s pre' ih =>
      have hs : ¬s.StepID = "dcc_proposal" := hpre s (by simp)
      have hpre' : ∀ s' ∈ pre', s'.StepID ≠ "dcc_proposal" :=
        fun s' hs' => hpre s' (by simp [hs'])
      have ihx := ih (i + 1) hpre'
      by_cases hsp : s.Service = "PBC_Payment"
      · simp only [List.cons_append, runStepsFrom, if_neg hs, List.append_eq,
          ihx, Prod.mk.injEq]
        constructor
        · simp [payTrace, List.filter_cons, hsp]
        · simp only [List.length_cons]
          congr 1
          omega
      · simp only [List.cons_append, runStepsFrom, if_neg hs, List.append_eq,
          ihx, Prod.mk.injEq]
        constructor
        · simp [payTrace, List.filter_cons, hsp]
        · simp only [List.length_cons]
          congr 1
          omega

/-! ### Characterisation of template matching -/

theorem findWorkflowIn_eq_find? (db : List Workflow) (o : Order) :
    findWorkflowIn db o = db.find? fun wf => decide (wfMatches wf o) := by
  induction db with
  | nil => rfl
  | cons w db' ih =>
      by_cases hw : wfMatches w o
      · rw [List.find?_cons_of_pos _ (by simpa using hw)]
        have : findWorkflowIn (w :: db') o = some w := by
          obtain ⟨h1, h2⟩ := hw
          simp [findWorkflowIn, h1, h2]
        exact this
      · rw [List.find?_cons_of_neg _ (by simpa using hw)]
        rw [← ih]
        rw [wfMatches] at hw
        push_neg at hw
        by_cases h1 : criteriaGet w.Criteria "payment_type" = "credit_card"
        · simp [findWorkflowIn, h1, hw h1]
        · simp [findWorkflowIn, h1]

theorem findWorkflowIn_some_iff (db : List Workflow) (o : Order)
    (wf : Workflow) :
    findWorkflowIn db o = some wf ↔
      wfMatches wf o ∧ ∃ pre rest, db = pre ++ wf :: rest ∧
        ∀ w ∈ pre, ¬wfMatches w o := by
  rw [findWorkflowIn_eq_find?, List.find?_eq_some]
  simp

theorem findWorkflowIn_none_iff (db : List Workflow) (o : Order) :
    findWorkflowIn db o = none ↔ ∀ w ∈ db, ¬wfMatches w o := by
  rw [findWorkflowIn_eq_find?, List.find?_eq_none]
  simp

/-! ### Unfolding lemmas for the two handlers -/

theorem createOrder_of_match (db : List Workflow) (draft : Order)
    (st : ServerState) (wf : Workflow)
    (h : findWorkflowIn db (assignOrder draft st) = some wf) :
    createOrder db draft st =
      (⟨insertKey st.ordersDB (assignOrder draft st).OrderID
          (assignOrder draft st),
        (executeWorkflowSteps (assignOrder draft st)
          (assignOrder draft st).OrderID ⟨wf, 0⟩
          (insertKey st.workflowInstances (assignOrder draft st).OrderID
            ⟨wf, 0⟩)).1⟩,
       assignOrder draft st,
       (executeWorkflowSteps (assignOrder draft st)
         (assignOrder draft st).OrderID ⟨wf, 0⟩
         (insertKey st.workflowInstances (assignOrder draft st).OrderID
           ⟨wf, 0⟩)).2) := by
  simp [createOrder, h]

theorem createOrder_of_noMatch (db : List Workflow) (draft : Order)
    (st : ServerState)
    (h : findWorkflowIn db (assignOrder draft st) = none) :
    createOrder db draft st =
      (⟨insertKey st.ordersDB (assignOrder draft st).OrderID
          (assignOrder draft st), st.workflowInstances⟩,
       assignOrder draft st, []) := by
  simp [createOrder, h]

theorem acceptDCCHandler_of_order_inst (resp : DCCResponse) (st : ServerState)
    (o : Order) (inst : WorkflowInstance)
    (ho : lookupKey st.ordersDB resp.OrderID = some o)
    (hi : lookupKey st.workflowInstances resp.OrderID = some inst) :
    acceptDCCHandler resp st =
      (⟨insertKey st.ordersDB resp.OrderID (decisionUpdate resp o),
        (executeWorkflowSteps (decisionUpdate resp o) resp.OrderID inst
          st.workflowInstances).1⟩,
       (executeWorkflowSteps (decisionUpdate resp o) resp.OrderID inst
         st.workflowInstances).2) := by
  simp [acceptDCCHandler, ho, hi]

theorem acceptDCCHandler_of_noInst (resp : DCCResponse) (st : ServerState)
    (hi : lookupKey st.workflowInstances resp.OrderID = none) :
    acceptDCCHandler resp st =
      (⟨match lookupKey st.ordersDB resp.OrderID with
        | some o => insertKey st.ordersDB resp.OrderID (decisionUpdate resp o)
        | none => st.ordersDB,
        st.workflowInstances⟩, []) := by
  cases ho : lookupKey st.ordersDB resp.OrderID with
  | some o => simp [acceptDCCHandler, ho, hi]
  | none => simp [acceptDCCHandler, ho, hi]

theorem decisionUpdate_frame (resp : DCCResponse) (o : Order) :
    (decisionUpdate resp o).OrderID = o.OrderID ∧
    (decisionUpdate resp o).CustomerID = o.CustomerID ∧
    (decisionUpdate resp o).Amount = o.Amount ∧
    (decisionUpdate resp o).Currency = o.Currency ∧
    (decisionUpdate resp o).CardBrand = o.CardBrand := by
  unfold decisionUpdate
  by_cases h : resp.Accepted <;> simp [h]

theorem executeWorkflowSteps_noPause (order : Order) (instKey : String)
    (inst : WorkflowInstance)
    (instances : List (String × WorkflowInstance))
    (h : ∀ s ∈ inst.Workflow.Steps.drop inst.StepIndex,
      s.StepID ≠ "dcc_proposal") :
    executeWorkflowSteps order instKey inst instances =
      (eraseKey instances order.OrderID,
       payTrace order (inst.Workflow.Steps.drop inst.StepIndex)) := by
  simp [executeWorkflowSteps, runStepsFrom_noPause _ _ _ h]

theorem executeWorkflowSteps_pause (order : Order) (instKey : String)
    (inst : WorkflowInstance)
    (instances : List (String × WorkflowInstance))
    (pre rest : List WorkflowStep) (pause : WorkflowStep)
    (hdrop : inst.Workflow.Steps.drop inst.StepIndex = pre ++ pause :: rest)
    (hpre : ∀ s ∈ pre, s.StepID ≠ "dcc_proposal")
    (hp : pause.StepID = "dcc_proposal") :
    executeWorkflowSteps order instKey inst instances =
      (insertKey instances instKey
         ⟨inst.Workflow, inst.StepIndex + pre.length + 1⟩,
       payTrace order pre ++ [Event.proposeDCC order]) := by
  simp [executeWorkflowSteps, hdrop, runStepsFrom_pause _ _ _ _ _ hpre hp]

/-! ### The sequence of order IDs assigned by repeated creation -/

theorem sprintfOrderId_not_mem_idKeys (n : Nat) :
    sprintfOrderId (n + 1) ∉ idKeys n := by
  intro h
  simp only [idKeys, List.mem_map, List.mem_range] at h
  obtain ⟨i, hi, heq⟩ := h
  have := sprintfOrderId_inj (i + 1) (n + 1) (by omega) (by omega) heq
  omega

theorem idKeys_succ (n : Nat) :
    idKeys (n + 1) = idKeys n ++ [sprintfOrderId (n + 1)] := by
  simp [idKeys, List.range_succ]

theorem createOrder_ordersDB (db : List Workflow) (draft : Order)
    (st : ServerState) :
    (createOrder db draft st).1.ordersDB =
      insertKey st.ordersDB (assignOrder draft st).OrderID
        (assignOrder draft st) := by
  cases h : findWorkflowIn db (assignOrder draft st) with
  | none => simp [createOrder_of_noMatch db draft st h]
  | some wf => simp [createOrder_of_match db draft st wf h]

theorem createOrder_order (db : List Workflow) (draft : Order)
    (st : ServerState) :
    (createOrder db draft st).2.1 = assignOrder draft st := by
  cases h : findWorkflowIn db (assignOrder draft st) with
  | none => simp [createOrder_of_noMatch db draft st h]
  | some wf => simp [createOrder_of_match db draft st wf h]

theorem createMany_cons (db : List Workflow) (d : Order) (rest : List Order)
    (st : ServerState) :
    createMany db (d :: rest) st =
      ((createMany db rest (createOrder db d st).1).1,
       (createOrder db d st).2.1 ::
         (createMany db rest (createOrder db d st).1).2) := by
  simp [createMany]

theorem createMany_spec (db : List Workflow) :
    ∀ (drafts : List Order) (st : ServerState) (n : Nat),
      st.ordersDB.map Prod.fst = idKeys n →
      ((createMany db drafts st).1.ordersDB.map Prod.fst =
         idKeys (n + drafts.length)) ∧
      ((createMany db drafts st).2.map Order.OrderID =
         (List.range drafts.length).map fun i => sprintfOrderId (n + i + 1)) ∧
      (∀ k v, lookupKey st.ordersDB k = some v →
         lookupKey (createMany db drafts st).1.ordersDB k = some v) ∧
      (∀ o ∈ (createMany db drafts st).2,
         lookupKey (createMany db drafts st).1.ordersDB o.OrderID = some o) := by
  intro drafts
  induction drafts with
  | nil =>
      intro st n hkeys
      refine ⟨by simpa [createMany] using hkeys, by simp [createMany], ?_, ?_⟩
      · intro k v hv; simpa [createMany] using hv
      · intro o ho; simp [createMany] at ho
  | cons d rest ih =>
      intro st n hkeys
      have hlen : st.ordersDB.length = n := by
        have := congrArg List.length hkeys
        simpa [idKeys] using this
      have hid : (assignOrder d st).OrderID = sprintfOrderId (n + 1) := by
        simp [assignOrder, hlen]
      have hfresh : (assignOrder d st).OrderID ∉ st.ordersDB.map Prod.fst := by
        rw [hid, hkeys]; exact sprintfOrderId_not_mem_idKeys n
      have hins : (createOrder db d st).1.ordersDB =
          st.ordersDB ++ [((assignOrder d st).OrderID, assignOrder d st)] := by
        rw [createOrder_ordersDB, insertKey_fresh _ _ _ hfresh]
      have hkeys1 : (createOrder db d st).1.ordersDB.map Prod.fst =
          idKeys (n + 1) := by
        rw [hins, idKeys_succ]
        simp [hkeys, hid]
      obtain ⟨ihkeys, ihids, ihpres, ihmem⟩ :=
        ih (createOrder db d st).1 (n + 1) hkeys1
      rw [createMany_cons]
      refine ⟨?_, ?_, ?_, ?_⟩
      · simpa [Nat.add_assoc, Nat.add_comm 1 rest.length] using ihkeys
      · simp only [List.map_cons, createOrder_order, hid, List.length_cons,
          List.range_succ_eq_map, List.map_map, ihids]
        refine congrArg₂ List.cons (by simp) ?_
        refine List.map_congr_left ?_
        intro i hi
        simp only [Function.comp]
        congr 1
        omega
      · intro k v hv
        refine ihpres k v ?_
        rw [hins]
        exact lookupKey_append_of_some _ _ _ _ hv
      · intro o ho
        simp only [List.mem_cons] at ho
        rcases ho with h | h
        · subst h
          refine ihpres _ _ ?_
          rw [createOrder_order, createOrder_ordersDB]
          exact lookupKey_insertKey_self _ _ _
        · exact ihmem o h

/-! ### The claims -/

/-- C1: for every order whose matched template contains a pause step, the
initial burst started by order creation stops at the first pause step,
whatever its index: the instance stays in the registry with cursor equal to
the pause step's index plus one, the trace is exactly the settlement
invocations of the steps before the pause followed by the single
decision-offer invocation, and no later step (in particular no settlement
step after the pause) has run. -/
theorem C1_initial_burst_suspends_at_first_pause
    (db : List Workflow) (draft : Order) (st : ServerState) (wf : Workflow)
    (pre rest : List WorkflowStep) (pause : WorkflowStep)
    (hfind : findWorkflowIn db (assignOrder draft st) = some wf)
    (hsteps : wf.Steps = pre ++ pause :: rest)
    (hpre : ∀ s ∈ pre, s.StepID ≠ "dcc_proposal")
    (hpause : pause.StepID = "dcc_proposal") :
    lookupKey (createOrder db draft st).1.workflowInstances
        (assignOrder draft st).OrderID = some ⟨wf, pre.length + 1⟩ ∧
    (createOrder db draft st).2.2 =
      payTrace (assignOrder draft st) pre ++
        [Event.proposeDCC (assignOrder draft st)] := by
  have hdrop : (⟨wf, 0⟩ : WorkflowInstance).Workflow.Steps.drop
      (⟨wf, 0⟩ : WorkflowInstance).StepIndex = pre ++ pause :: rest := by
    simpa using hsteps
  rw [createOrder_of_match db draft st wf hfind]
  rw [executeWorkflowSteps_pause _ _ _ _ pre rest pause hdrop hpre hpause]
  refine ⟨?_, rfl⟩
  simpa using lookupKey_insertKey_self
    (insertKey st.workflowInstances (assignOrder draft st).OrderID ⟨wf, 0⟩)
    (assignOrder draft st).OrderID ⟨wf, pre.length + 1⟩

theorem C1_witness :
    lookupKey (createOrder workflowsDB draftUSD initialState).1.workflowInstances
        (assignOrder draftUSD initialState).OrderID =
      some ⟨wfDcc, 1⟩ ∧
    (createOrder workflowsDB draftUSD initialState).2.2 =
      payTrace (assignOrder draftUSD initialState) [] ++
        [Event.proposeDCC (assignOrder draftUSD initialState)] :=
  C1_initial_burst_suspends_at_first_pause workflowsDB draftUSD initialState
    wfDcc [] [⟨"payment_processing", "PBC_Payment", "pending"⟩]
    ⟨"dcc_proposal", "PBC_DCC", "pending"⟩
    (by decide) (by decide) (by decide) (by decide)

/-- C6: for every creation input, the returned (and stored) order's payment
amount equals the original amount and its payment currency equals the
original currency. -/
theorem C6_payment_fields_initialised_from_originals
    (db : List Workflow) (draft : Order) (st : ServerState) :
    (createOrder db draft st).2.1.PaymentAmount = draft.Amount ∧
    (createOrder db draft st).2.1.PaymentCurrency = draft.Currency ∧
    lookupKey (createOrder db draft st).1.ordersDB
        (createOrder db draft st).2.1.OrderID =
      some (createOrder db draft st).2.1 := by
  rw [createOrder_order, createOrder_ordersDB]
  exact ⟨rfl, rfl, lookupKey_insertKey_self _ _ _⟩

/-- C7: when no template matches the new order, no workflow instance is
created, no step runs, and the order remains stored — a valid terminal
state. -/
theorem C7_no_matching_template_is_terminal
    (db : List Workflow) (draft : Order) (st : ServerState)
    (h : findWorkflowIn db (assignOrder draft st) = none) :
    (createOrder db draft st).1.workflowInstances = st.workflowInstances ∧
    (createOrder db draft st).2.2 = [] ∧
    lookupKey (createOrder db draft st).1.ordersDB
        (assignOrder draft st).OrderID = some (assignOrder draft st) := by
  rw [createOrder_of_noMatch db draft st h]
  exact ⟨rfl, rfl, lookupKey_insertKey_self _ _ _⟩

theorem C7_witness :
    (createOrder workflowsDB draftEUR initialState).1.workflowInstances =
      initialState.workflowInstances ∧
    (createOrder workflowsDB draftEUR initialState).2.2 = [] ∧
    lookupKey (createOrder workflowsDB draftEUR initialState).1.ordersDB
        (assignOrder draftEUR initialState).OrderID =
      some (assignOrder draftEUR initialState) :=
  C7_no_matching_template_is_terminal workflowsDB draftEUR initialState
    (by decide)

/-- C10: `createOrder` overwrites only the order ID and the two payment
fields; every other decoded field — including the decision-accepted flag —
is stored exactly as supplied in the request body. -/
theorem C10_decoded_fields_stored_as_given
    (db : List Workflow) (draft : Order) (st : ServerState) :
    (createOrder db draft st).2.1 =
      { draft with
          OrderID := sprintfOrderId (st.ordersDB.length + 1)
          PaymentAmount := draft.Amount
          PaymentCurrency := draft.Currency } ∧
    (createOrder db draft st).2.1.DCCAccepted = draft.DCCAccepted := by
  rw [createOrder_order]
  exact ⟨rfl, rfl⟩

/-- C2: an accepted decision on an existing order with a suspended instance
sets the payment amount/currency to the new values and the decision flag to
true, the resumed burst executes the remaining (pause-free) steps with the
updated payment values, and the instance is removed from the registry when
the last step finishes. -/
theorem C2_accepted_decision_updates_and_completes
    (resp : DCCResponse) (st : ServerState) (o : Order)
    (inst : WorkflowInstance)
    (ho : lookupKey st.ordersDB resp.OrderID = some o)
    (hoid : o.OrderID = resp.OrderID)
    (hi : lookupKey st.workflowInstances resp.OrderID = some inst)
    (hacc : resp.Accepted = true)
    (hnp : ∀ s ∈ inst.Workflow.Steps.drop inst.StepIndex,
      s.StepID ≠ "dcc_proposal") :
    lookupKey (acceptDCCHandler resp st).1.ordersDB resp.OrderID =
      some { o with
               PaymentAmount := resp.NewAmount
               PaymentCurrency := resp.NewCurrency
               DCCAccepted := true } ∧
    lookupKey (acceptDCCHandler resp st).1.workflowInstances resp.OrderID =
      none ∧
    (acceptDCCHandler resp st).2 =
      payTrace
        { o with
            PaymentAmount := resp.NewAmount
            PaymentCurrency := resp.NewCurrency
            DCCAccepted := true }
        (inst.Workflow.Steps.drop inst.StepIndex) := by
  have hupd : decisionUpdate resp o =
      { o with
          PaymentAmount := resp.NewAmount
          PaymentCurrency := resp.NewCurrency
          DCCAccepted := true } := by
    simp [decisionUpdate, hacc]
  have hkey : (decisionUpdate resp o).OrderID = resp.OrderID := by
    rw [hupd]; exact hoid
  rw [acceptDCCHandler_of_order_inst resp st o inst ho hi,
    executeWorkflowSteps_noPause _ _ _ _ hnp]
  refine ⟨?_, ?_, by rw [hupd]⟩
  · rw [hupd] at *
    simpa using lookupKey_insertKey_self st.ordersDB resp.OrderID _
  · simp only [hkey]
    simpa using lookupKey_eraseKey_self st.workflowInstances resp.OrderID

theorem C2_witness :
    lookupKey (acceptDCCHandler respAccept stSusp).1.ordersDB "order-1" =
      some { oSusp with
               PaymentAmount := 85
               PaymentCurrency := "BRL"
               DCCAccepted := true } ∧
    lookupKey (acceptDCCHandler respAccept stSusp).1.workflowInstances
        "order-1" = none ∧
    (acceptDCCHandler respAccept stSusp).2 =
      payTrace
        { oSusp with
            PaymentAmount := 85
            PaymentCurrency := "BRL"
            DCCAccepted := true }
        (wfDcc.Steps.drop 1) :=
  C2_accepted_decision_updates_and_completes respAccept stSusp oSusp
    ⟨wfDcc, 1⟩ (by decide) (by decide) (by decide) (by decide) (by decide)

/-- C3: a rejected decision on an existing order with a suspended instance
leaves the payment amount and currency exactly as they were (even though new
values were supplied), sets the decision flag to false, and the remaining
(pause-free) steps execute with the original payment values. -/
theorem C3_rejected_decision_keeps_payment_fields
    (resp : DCCResponse) (st : ServerState) (o : Order)
    (inst : WorkflowInstance)
    (ho : lookupKey st.ordersDB resp.OrderID = some o)
    (hi : lookupKey st.workflowInstances resp.OrderID = some inst)
    (hrej : resp.Accepted = false)
    (hnp : ∀ s ∈ inst.Workflow.Steps.drop inst.StepIndex,
      s.StepID ≠ "dcc_proposal") :
    lookupKey (acceptDCCHandler resp st).1.ordersDB resp.OrderID =
      some { o with DCCAccepted := false } ∧
    ({ o with DCCAccepted := false } : Order).PaymentAmount =
      o.PaymentAmount ∧
    ({ o with DCCAccepted := false } : Order).PaymentCurrency =
      o.PaymentCurrency ∧
    (acceptDCCHandler resp st).2 =
      payTrace { o with DCCAccepted := false }
        (inst.Workflow.Steps.drop inst.StepIndex) := by
  have hupd : decisionUpdate resp o = { o with DCCAccepted := false } := by
    simp [decisionUpdate, hrej]
  rw [acceptDCCHandler_of_order_inst resp st o inst ho hi,
    executeWorkflowSteps_noPause _ _ _ _ hnp]
  refine ⟨?_, rfl, rfl, by rw [hupd]⟩
  rw [hupd] at *
  simpa using lookupKey_insertKey_self st.ordersDB resp.OrderID _

theorem C3_witness :
    lookupKey (acceptDCCHandler respReject stSusp).1.ordersDB "order-1" =
      some { oSusp with DCCAccepted := false } ∧
    ({ oSusp with DCCAccepted := false } : Order).PaymentAmount =
      oSusp.PaymentAmount ∧
    ({ oSusp with DCCAccepted := false } : Order).PaymentCurrency =
      oSusp.PaymentCurrency ∧
    (acceptDCCHandler respReject stSusp).2 =
      payTrace { oSusp with DCCAccepted := false } (wfDcc.Steps.drop 1) :=
  C3_rejected_decision_keeps_payment_fields respReject stSusp oSusp
    ⟨wfDcc, 1⟩ (by decide) (by decide) (by decide) (by decide)

/-- C4 counterexample: the claim says a decision submitted after the
instance was removed leaves the order's stored state completely unchanged;
in fact `acceptDCCHandler` updates the order before it consults the
instance registry.  At `stDone` (order `order-1` present, no instance), the
duplicate accepting decision `respDup` changes the stored payment amount
from 85 to 70. -/
theorem C4_counterexample :
    lookupKey (acceptDCCHandler respDup stDone).1.ordersDB "order-1" ≠
      lookupKey stDone.ordersDB "order-1" := by
  decide

/-- C4 amended: a decision for an order whose instance is gone does not
crash, runs no step, and leaves the instance registry unchanged, but the
stored order is still updated by the decision outcome (payment fields and
flag on acceptance; flag on rejection); the store is untouched only when the
order itself is unknown. -/
theorem C4_amended_late_decision_still_updates_order
    (resp : DCCResponse) (st : ServerState)
    (hi : lookupKey st.workflowInstances resp.OrderID = none) :
    (acceptDCCHandler resp st).1.workflowInstances = st.workflowInstances ∧
    (acceptDCCHandler resp st).2 = [] ∧
    (∀ o, lookupKey st.ordersDB resp.OrderID = some o →
      (acceptDCCHandler resp st).1.ordersDB =
        insertKey st.ordersDB resp.OrderID (decisionUpdate resp o)) ∧
    (lookupKey st.ordersDB resp.OrderID = none →
      (acceptDCCHandler resp st).1.ordersDB = st.ordersDB) := by
  rw [acceptDCCHandler_of_noInst resp st hi]
  refine ⟨rfl, rfl, ?_, ?_⟩
  · intro o ho; simp [ho]
  · intro ho; simp [ho]

theorem C4_witness :
    (acceptDCCHandler respDup stDone).1.workflowInstances =
      stDone.workflowInstances ∧
    (acceptDCCHandler respDup stDone).2 = [] ∧
    (∀ o, lookupKey stDone.ordersDB "order-1" = some o →
      (acceptDCCHandler respDup stDone).1.ordersDB =
        insertKey stDone.ordersDB "order-1" (decisionUpdate respDup o)) ∧
    (lookupKey stDone.ordersDB "order-1" = none →
      (acceptDCCHandler respDup stDone).1.ordersDB = stDone.ordersDB) :=
  C4_amended_late_decision_still_updates_order respDup stDone (by decide)

/-- C5 counterexample: the claim says `Match` returns the first template all
of whose criterion keys equal the corresponding original field of the order;
but the Go `Order` has no payment-type field, and `findWorkflow` compares
the `payment_type` criterion against the literal `"credit_card"` instead of
any order field.  On the USD order the source matcher picks the DCC
template while the spec's criteria rule matches no template at all. -/
theorem C5_counterexample :
    findWorkflow draftUSD = some wfDcc ∧
    specMatchIn workflowsDB draftUSD = none := by
  decide

/-- C5 amended: `findWorkflow` iterates the templates in registration order
and returns the first whose `payment_type` criterion is the literal
`"credit_card"` and whose `currency` criterion equals the order's original
currency (`wfMatches`), and returns `nil` exactly when no template passes
that test. -/
theorem C5_amended_first_match_semantics (db : List Workflow) (o : Order) :
    (∀ wf, findWorkflowIn db o = some wf ↔
      wfMatches wf o ∧ ∃ pre rest, db = pre ++ wf :: rest ∧
        ∀ w ∈ pre, ¬wfMatches w o) ∧
    (findWorkflowIn db o = none ↔ ∀ w ∈ db, ¬wfMatches w o) :=
  ⟨fun wf => findWorkflowIn_some_iff db o wf, findWorkflowIn_none_iff db o⟩

theorem C5_witness :
    wfMatches wfDcc draftUSD ∧ ∃ pre rest,
      workflowsDB = pre ++ wfDcc :: rest ∧
        ∀ w ∈ pre, ¬wfMatches w draftUSD :=
  ((C5_amended_first_match_semantics workflowsDB draftUSD).1 wfDcc).mp
    (by decide)

theorem acceptDCCHandler_ordersDB (resp : DCCResponse) (st : ServerState) :
    (acceptDCCHandler resp st).1.ordersDB =
      match lookupKey st.ordersDB resp.OrderID with
      | some o => insertKey st.ordersDB resp.OrderID (decisionUpdate resp o)
      | none => st.ordersDB := by
  cases ho : lookupKey st.ordersDB resp.OrderID with
  | some o =>
      cases hi : lookupKey st.workflowInstances resp.OrderID with
      | some inst => simp [acceptDCCHandler_of_order_inst resp st o inst ho hi]
      | none => simp [acceptDCCHandler_of_noInst resp st hi, ho]
  | none =>
      cases hi : lookupKey st.workflowInstances resp.OrderID with
      | some inst => simp [acceptDCCHandler, ho, hi]
      | none => simp [acceptDCCHandler_of_noInst resp st hi, ho]

/-- C8: whatever the decision outcome, every stored order's identity and
original ("search") fields — customer ID, original amount, original
currency, card brand — survive `acceptDCCHandler` unchanged; only the
payment fields and the decision flag may differ. -/
theorem C8_decision_preserves_original_fields
    (resp : DCCResponse) (st : ServerState) (oid : String) (o : Order)
    (ho : lookupKey st.ordersDB oid = some o) :
    ∃ o', lookupKey (acceptDCCHandler resp st).1.ordersDB oid = some o' ∧
      o'.OrderID = o.OrderID ∧ o'.CustomerID = o.CustomerID ∧
      o'.Amount = o.Amount ∧ o'.Currency = o.Currency ∧
      o'.CardBrand = o.CardBrand := by
  rw [acceptDCCHandler_ordersDB resp st]
  cases htgt : lookupKey st.ordersDB resp.OrderID with
  | none => exact ⟨o, by simp [ho], rfl, rfl, rfl, rfl, rfl⟩
  | some o₀ =>
      by_cases hk : oid = resp.OrderID
      · subst hk
        rw [ho] at htgt
        cases htgt
        refine ⟨decisionUpdate resp o, ?_, decisionUpdate_frame resp o⟩
        simpa using lookupKey_insertKey_self st.ordersDB resp.OrderID _
      · refine ⟨o, ?_, rfl, rfl, rfl, rfl, rfl⟩
        simpa using
          (lookupKey_insertKey_ne st.ordersDB resp.OrderID oid _ hk).trans ho

theorem C8_witness :
    ∃ o', lookupKey (acceptDCCHandler respAccept stSusp).1.ordersDB
        "order-1" = some o' ∧
      o'.OrderID = oSusp.OrderID ∧ o'.CustomerID = oSusp.CustomerID ∧
      o'.Amount = oSusp.Amount ∧ o'.Currency = oSusp.Currency ∧
      o'.CardBrand = oSusp.CardBrand :=
  C8_decision_preserves_original_fields respAccept stSusp "order-1" oSusp
    (by decide)

/-- C9: starting from the empty store, any sequence of order creations
assigns pairwise-distinct order IDs, and at the end every created order is
still stored under its own ID, unchanged. -/
theorem C9_created_ids_unique_and_immutable (drafts : List Order) :
    ((createMany workflowsDB drafts initialState).2.map Order.OrderID).Nodup ∧
    ∀ o ∈ (createMany workflowsDB drafts initialState).2,
      lookupKey (createMany workflowsDB drafts initialState).1.ordersDB
        o.OrderID = some o := by
  obtain ⟨-, hids, -, hmem⟩ :=
    createMany_spec workflowsDB drafts initialState 0 (by simp [idKeys, initialState])
  refine ⟨?_, hmem⟩
  rw [hids]
  refine List.Nodup.map_on ?_ (List.nodup_range drafts.length)
  intro i hi j hj hij
  have := sprintfOrderId_inj (0 + i + 1) (0 + j + 1) (by omega) (by omega) hij
  omega

theorem C9_witness :
    ((createMany workflowsDB [draftUSD, draftBRL, draftUSD]
        initialState).2.map Order.OrderID).Nodup ∧
    ∀ o ∈ (createMany workflowsDB [draftUSD, draftBRL, draftUSD]
        initialState).2,
      lookupKey (createMany workflowsDB [draftUSD, draftBRL, draftUSD]
          initialState).1.ordersDB o.OrderID = some o :=
  C9_created_ids_unique_and_immutable [draftUSD, draftBRL, draftUSD]
